import Mathlib

/-!
# Verification of the robocup `simpleAgent` core

Shallow embedding of the parts of `simpleAgent.py` that the specification's
claims talk about:

* the `MovementScheduler` (a `collections.deque` subclass with a
  conflict-checking `append` and a round-robin `run`),
* the length-prefixed receive loop `PNS._receive_message`,
* the symbolic-message scanner `PNS.__str2list` together with its atom typing,
* the joint motion controller `NaoRobot.move_hj_to` with the joint tables,
* the `say` effector `PNS.say_effector`,
* the orientation integrator `Gyroscope.set` built on `rotate_arbitrary`.

Python numbers are modelled as `ℚ` (exact arithmetic; the agent only performs
field operations on them) except in the orientation integrator, whose
trigonometry is modelled over `ℝ`.  Python lists used as shared mutable
completion cells are modelled as indices into an explicit boolean store.
-/

/-! ## The movement scheduler (`MovementScheduler`) -/

/-- A validated queue entry: the target function (identified by an id, since
only identity/equality of the Python function object matters), the keyword
argument dictionary (an association list of string keys and values; only
equality of values is ever used), and the optional completion cell, modelled
as an index into a store of booleans (the zeroth entry of the shared Python
list). -/
structure SchedTask where
  fn : Nat
  kw : List (String × String)
  cell : Option Nat
deriving DecidableEq, Repr

/-- A Python value appearing as an element of a candidate queue item:
a function object, a dict, a list object (a reference into the cell store),
or anything else. -/
inductive PyElem where
  | pyFun (f : Nat)
  | pyDict (d : List (String × String))
  | pyListRef (i : Nat)
  | pyOther
deriving DecidableEq, Repr

/-- A Python value passed to `MovementScheduler.append`: either a list
(given by its elements) or some non-list value. -/
inductive PyVal where
  | vList (xs : List PyElem)
  | nonlist
deriving DecidableEq, Repr

/-- The exceptions the scheduler can raise: `QueueItemError` (with its
message), `SchedulerConflict`, and `IndexError` (popping an empty deque). -/
inductive SchedErr where
  | queueItemError (msg : String)
  | schedulerConflict
  | indexError
deriving DecidableEq, Repr

/-- Result of a call to `MovementScheduler.append`: the raised exception, if
any, together with the state of the deque after the call (the method mutates
`self` in place, so on an exception the caller observes this state). -/
structure AppendResult where
  err : Option SchedErr
  queue : List SchedTask
deriving DecidableEq, Repr

/-- `d[k]` on a Python dict, as `Option`: `none` models a raised `KeyError`. -/
def dictGet (d : List (String × String)) (k : String) : Option String :=
  match d with
  | [] => none
  | (k', v) :: rest => if k' = k then some v else dictGet rest k

/-- The conflict test of `MovementScheduler.append` between a queued `item`
and the `newitem` being appended: same target function, and both keyword
dicts hold key `hj` with equal values (a `KeyError` on either lookup is
swallowed by the `except KeyError: pass`). -/
def conflicts (item newT : SchedTask) : Bool :=
  item.fn == newT.fn &&
    match dictGet item.kw ("hj"), dictGet newT.kw ("hj") with
    | some v, some w => v == w
    | _, _ => false

/-- The tail of `MovementScheduler.append` once the first element `a` and the
second element `b` of the item have been reached by the format checks:
`a` must be callable, `b` must be a dict; then the queue is scanned for a
conflict and, if none arises, the validated task is appended at the back. -/
def checkTwo (q : List SchedTask) (a b : PyElem) (cell : Option Nat) : AppendResult :=
  match a with
  | .pyFun f =>
    match b with
    | .pyDict d =>
      let t : SchedTask := ⟨f, d, cell⟩
      if q.any (fun item => conflicts item t) then ⟨some .schedulerConflict, q⟩
      else ⟨none, q ++ [t]⟩
    | _ => ⟨some (.queueItemError ("MovementQueue items must be of format: [<function>, <kwargs dict>, <list>].")), q⟩
  | _ => ⟨some (.queueItemError ("First item in list must be a function.")), q⟩

/-- `MovementScheduler.append`, lines 224-256 of `simpleAgent.py`: format
checks in source order (list, arity 2 or 3, third element a list, first
element callable, second element a dict), then the conflict scan, then the
actual `deque.append`. -/
def MovementScheduler.append (q : List SchedTask) (newitem : PyVal) : AppendResult :=
  match newitem with
  | .nonlist => ⟨some (.queueItemError ("MovementQueue items must be lists.")), q⟩
  | .vList xs =>
    match xs with
    | [a, b] => checkTwo q a b none
    | [a, b, c] =>
      match c with
      | .pyListRef i => checkTwo q a b (some i)
      | _ => ⟨some (.queueItemError ("Third (optional) item to MovementQueue entries must be a list.")), q⟩
    | _ => ⟨some (.queueItemError ("MovementQueue items must be of format: [<function>, <kwargs dict>, <list>].")), q⟩

/-- The task a well-formed item validates to, if any. -/
def extractTask : PyVal → Option SchedTask
  | .vList [.pyFun f, .pyDict d] => some ⟨f, d, none⟩
  | .vList [.pyFun f, .pyDict d, .pyListRef i] => some ⟨f, d, some i⟩
  | _ => none

/-- The Python list a queued task was built from (used when `run` re-appends
a popped item through `self.append`). -/
def taskToPyVal (t : SchedTask) : PyVal :=
  match t.cell with
  | none => .vList [.pyFun t.fn, .pyDict t.kw]
  | some i => .vList [.pyFun t.fn, .pyDict t.kw, .pyListRef i]

/-- A sequence of `append` calls (the enqueues a task body performs during
its execution step); stops at the first raised exception, returning it and
the queue state at that point. -/
def appendAll (q : List SchedTask) : List PyVal → Option SchedErr × List SchedTask
  | [] => (none, q)
  | v :: vs =>
    let r := MovementScheduler.append q v
    match r.err with
    | some e => (some e, r.queue)
    | none => appendAll r.queue vs

/-- What the scheduler observes of one execution step of a task body
(`function(**argDict)`): whether the return value equals the string `done`,
and the sequence of `append` calls the body performed on the scheduler. -/
structure StepEffect where
  retDone : Bool
  enqueues : List PyVal
deriving Repr

/-- Result of a call to `MovementScheduler.run`: the raised exception if any,
the queue and the completion-cell store after the call, and the trace of the
tasks whose bodies were invoked, in invocation order. -/
structure RunResult where
  err : Option SchedErr
  queue : List SchedTask
  cells : List Bool
  trace : List SchedTask
deriving DecidableEq, Repr

/-- The loop of `MovementScheduler.run`, lines 260-274: `for i in
range(len(self))` evaluates `len(self)` once, so exactly the initial length
many iterations run; each pops the front item, invokes its body (whose
effect is given by the environment `env`, indexed by the number of bodies
invoked so far), re-appends the item through the conflict-checking `append`
when the return value is not `done`, and otherwise sets the completion
cell's zeroth entry when the item carries one.  A raised exception aborts
the loop, leaving the deque and store in their current state. -/
def MovementScheduler.runAux (env : Nat → SchedTask → StepEffect) :
    Nat → List SchedTask → List Bool → List SchedTask → RunResult
  | 0, q, cs, tr => ⟨none, q, cs, tr⟩
  | _ + 1, [], cs, tr => ⟨some .indexError, [], cs, tr⟩
  | n + 1, item :: rest, cs, tr =>
    let eff := env tr.length item
    let tr' := tr ++ [item]
    match appendAll rest eff.enqueues with
    | (some e, q1) => ⟨some e, q1, cs, tr'⟩
    | (none, q1) =>
      if eff.retDone then
        match item.cell with
        | some i =>
          if i < cs.length then MovementScheduler.runAux env n q1 (cs.set i true) tr'
          else ⟨some .indexError, q1, cs, tr'⟩
        | none => MovementScheduler.runAux env n q1 cs tr'
      else
        let r := MovementScheduler.append q1 (taskToPyVal item)
        match r.err with
        | some e => ⟨some e, r.queue, cs, tr'⟩
        | none => MovementScheduler.runAux env n r.queue cs tr'

/-- `MovementScheduler.run` on a queue and completion-cell store. -/
def MovementScheduler.run (env : Nat → SchedTask → StepEffect) (q : List SchedTask)
    (cells : List Bool) : RunResult :=
  MovementScheduler.runAux env q.length q cells []

/-- Modelled from the spec's run contract: the queue an error-free `run`
call must leave behind — for each initially queued task in FIFO order, the
tasks its step enqueued (deferred to the next call) followed by the task
itself when its step did not report `done`. -/
def runSpecQueue (env : Nat → SchedTask → StepEffect) (k : Nat) : List SchedTask → List SchedTask
  | [] => []
  | t :: ts =>
    ((env k t).enqueues.filterMap extractTask ++
      (if (env k t).retDone then [] else [t])) ++ runSpecQueue env (k + 1) ts

/-- Modelled from the spec's run contract: the completion-cell store an
error-free `run` call must leave behind — each done task with a third
element has its cell's zeroth entry set to true. -/
def runSpecCells (env : Nat → SchedTask → StepEffect) (k : Nat) :
    List SchedTask → List Bool → List Bool
  | [], cs => cs
  | t :: ts, cs =>
    runSpecCells env (k + 1) ts
      (if (env k t).retDone then
        match t.cell with
        | some i => cs.set i true
        | none => cs
      else cs)

/-! ## The transport receive loop (`PNS._receive_message`) -/

/-- A Python value that is either a `bytes` object (a list of byte values) or
a `str`.  `socket.recv` returns `bytes`; the guard in `_receive_message`
compares its result against the *string* `''`. -/
inductive PyStrOrBytes where
  | pyBytes (b : List Nat)
  | pyStr (s : String)
deriving DecidableEq, Repr

/-- Python `==` between these values: `bytes` and `str` are never equal to
each other in Python 3, whatever their contents. -/
def pyEq : PyStrOrBytes → PyStrOrBytes → Bool
  | .pyBytes a, .pyBytes b => a == b
  | .pyStr a, .pyStr b => a == b
  | _, _ => false

/-- Observation of the `while` loop of `_receive_message` after a bounded
number of iterations: still looping, terminated by a raised exception, or
returned a message. -/
inductive RecvOutcome where
  | stillLooping
  | raised (msg : String)
  | returned (message : List Nat)
deriving DecidableEq, Repr

/-- The loop of `PNS._receive_message`, lines 85-96: `recv k` is the `bytes`
chunk returned by the `k`-th call to `socket.recv` (a closed connection
yields the empty chunk `[]` forever), `length` the requested byte count,
`fuel` the number of loop iterations observed.  The guard is the source's
`nextBytes == ''`, a comparison of a `bytes` value with a `str` value. -/
def PNS.receive_message_loop (recv : Nat → List Nat) (length : Nat) :
    Nat → Nat → List Nat → RecvOutcome
  | 0, _, _ => .stillLooping
  | fuel + 1, k, message =>
    if message.length < length then
      let nextBytes := recv k
      if pyEq (.pyBytes nextBytes) (.pyStr "") then
        .raised ("Socket to simulation server was closed")
      else
        PNS.receive_message_loop recv length fuel (k + 1) (message ++ nextBytes)
    else .returned message

/-- `PNS._receive_message recv length`, observed for `fuel` iterations. -/
def PNS.receive_message (recv : Nat → List Nat) (length : Nat) (fuel : Nat) :
    RecvOutcome :=
  PNS.receive_message_loop recv length fuel 0 []

/-! ## The symbolic message scanner (`PNS.__str2list`) -/

/-- The value tree produced by `__str2list`: Python ints, floats (modelled
exactly as rationals; every literal the server sends is decimal), strings,
and nested lists. -/
inductive PyParsed where
  | pInt (n : ℤ)
  | pFloat (q : ℚ)
  | pStr (s : String)
  | pList (xs : List PyParsed)

/-- Digit string to number, most significant first. -/
def digitsToNat (l : List Char) : Nat :=
  l.foldl (fun a c => 10 * a + (c.toNat - ('0').toNat)) 0

/-- Leading/trailing spaces stripped (Python `int`/`float` ignore
surrounding whitespace; only the space character can occur here). -/
def stripSpaces (l : List Char) : List Char :=
  ((l.dropWhile (fun c => c == ' ')).reverse.dropWhile (fun c => c == ' ')).reverse

def allDigits (l : List Char) : Bool :=
  l.all (fun c => c.isDigit)

/-- Python `int(...)` on an optionally signed decimal digit string (the only
integer forms occurring in this protocol; underscores and non-ASCII digits
are not modelled). -/
def pyIntCore : List Char → Option ℤ
  | '+' :: r => if r ≠ [] ∧ allDigits r then some ((digitsToNat r : ℤ)) else none
  | '-' :: r => if r ≠ [] ∧ allDigits r then some (-(digitsToNat r : ℤ)) else none
  | l => if l ≠ [] ∧ allDigits l then some ((digitsToNat l : ℤ)) else none

def pyInt (s : String) : Option ℤ :=
  pyIntCore (stripSpaces s.toList)

/-- The unsigned mantissa of a Python float literal: `digits`,
`digits.digits`, `digits.` or `.digits`. -/
def parseMantissa (l : List Char) : Option ℚ :=
  let d1 := l.takeWhile (fun c => c.isDigit)
  let r1 := l.dropWhile (fun c => c.isDigit)
  match r1 with
  | [] => if d1 = [] then none else some ((digitsToNat d1 : ℚ))
  | '.' :: r2 =>
    let d2 := r2.takeWhile (fun c => c.isDigit)
    let r3 := r2.dropWhile (fun c => c.isDigit)
    if r3 ≠ [] then none
    else if d1 = [] ∧ d2 = [] then none
    else some ((digitsToNat d1 : ℚ) + (digitsToNat d2 : ℚ) / (10 : ℚ) ^ d2.length)
  | _ => none

/-- Python `float(...)` on a decimal literal, with optional sign and
exponent (`inf`/`nan` and underscores are not modelled; they never reach
this parser). -/
def pyFloatCore (l : List Char) : Option ℚ :=
  let mant := l.takeWhile (fun c => !(c == 'e' || c == 'E'))
  let rest := l.dropWhile (fun c => !(c == 'e' || c == 'E'))
  match rest with
  | [] => parseMantissa mant
  | _ :: expPart =>
    match parseMantissa mant, pyIntCore expPart with
    | some m, some e => some (m * (10 : ℚ) ^ (e : ℤ))
    | _, _ => none

def pyFloat (s : String) : Option ℚ :=
  match stripSpaces s.toList with
  | '+' :: r => pyFloatCore r
  | '-' :: r => (pyFloatCore r).map (fun q => -q)
  | l => pyFloatCore l

/-- Atom typing of `__str2list`: `try: int(word) except: try: float(word)
except: pass` — integer parse first, else float parse, else the raw string. -/
def typeWord (w : String) : PyParsed :=
  match pyInt w with
  | some n => .pInt n
  | none =>
    match pyFloat w with
    | some q => .pFloat q
    | none => .pStr w

/-- The scanner state of `__str2list`: the accumulator list `l`, the counts
`nbra`/`nket` of opening/closing delimiters seen so far, the `begin`/`end`
slice indices, and the previous character (`none` models the initial `''`). -/
structure ParseSt where
  l : List PyParsed
  nbra : Nat
  nket : Nat
  beginI : Nat
  endI : Nat
  prevc : Option Char

/-- One pass of the `for i, c in enumerate(string)` loop of `__str2list`
(lines 109-169), parametrised by the recursive parse `sub` applied to the
slice of a completed nested list.  `s` is the full string being scanned,
the second list argument the characters not yet consumed, so the current
index is `i = s.length - (rest.length + 1)`. -/
def parseLoop (sub : List Char → PyParsed) (s : List Char) :
    List Char → ParseSt → ParseSt
  | [], st => st
  | c :: rest, st =>
    let i := s.length - (rest.length + 1)
    let st1 :=
      if i = 0 ∧ c ≠ '(' then { st with beginI := i }
      else if st.nbra = 0 ∧ ¬(c = ' ' ∨ c = '(' ∨ c = ')') ∧
          (st.prevc = some '(' ∨ st.prevc = some ' ') then { st with beginI := i }
      else if c = '(' ∧ st.nbra = st.nket then { st with beginI := i + 1 }
      else if c = ')' ∧ st.nbra = st.nket + 1 then
        { st with
            endI := i
            l := st.l ++ [sub ((s.drop st.beginI).take (i - st.beginI))] }
      else st
    let st2 :=
      if i = s.length - 1 ∧ c ≠ ')' then
        { st1 with l := st1.l ++ [typeWord (String.mk (s.drop st1.beginI))] }
      else st1
    let st3 :=
      if c = ' ' ∧ st.nbra = 0 ∧
          ¬(st.prevc = some ' ' ∨ st.prevc = some '(' ∨ st.prevc = some ')') then
        { st2 with
            endI := i
            l := st2.l ++ [typeWord (String.mk ((s.drop st2.beginI).take (i - st2.beginI)))] }
      else st2
    let st4 := { st3 with
      nbra := st3.nbra + (if c = '(' then 1 else 0)
      nket := st3.nket + (if c = ')' then 1 else 0)
      prevc := some c }
    parseLoop sub s rest st4

/-- The collapsing rule closing `__str2list`: `return l[0] if len(l) == 1
else l`. -/
def collapseList : List PyParsed → PyParsed
  | [x] => x
  | xs => .pList xs

/-- `__str2list` with explicit recursion depth: each nested list is parsed
by a recursive call on a strictly shorter slice, so any `fuel` exceeding the
string length is enough (the `fuel = 0` fallback is never reached then). -/
def str2listFuel : Nat → List Char → PyParsed
  | 0, _ => .pList []
  | fuel + 1, chars =>
    collapseList (parseLoop (str2listFuel fuel) chars chars ⟨[], 0, 0, 0, 0, none⟩).l

/-- `PNS.__str2list` (also `PNS._parse_perceptors`) on a message string. -/
def PNS.str2list (s : String) : PyParsed :=
  str2listFuel (s.toList.length + 1) s.toList

/-! ## The joint motion controller (`NaoRobot.move_hj_to`) -/

/-- The `hjEffector` table of `NaoRobot.__init__`: hinge joint perceptor name
to hinge joint effector name. -/
def hjEffector : String → Option String
  | "hj1" => some ("he1")
  | "hj2" => some ("he2")
  | "raj1" => some ("rae1")
  | "raj2" => some ("rae2")
  | "raj3" => some ("rae3")
  | "raj4" => some ("rae4")
  | "laj1" => some ("lae1")
  | "laj2" => some ("lae2")
  | "laj3" => some ("lae3")
  | "laj4" => some ("lae4")
  | "rlj1" => some ("rle1")
  | "rlj2" => some ("rle2")
  | "rlj3" => some ("rle3")
  | "rlj4" => some ("rle4")
  | "rlj5" => some ("rle5")
  | "rlj6" => some ("rle6")
  | "llj1" => some ("lle1")
  | "llj2" => some ("lle2")
  | "llj3" => some ("lle3")
  | "llj4" => some ("lle4")
  | "llj5" => some ("lle5")
  | "llj6" => some ("lle6")
  | _ => none

/-- The `hjMax` table of `NaoRobot.__init__`: maximum legal angle (degrees). -/
def hjMax : String → Option ℚ
  | "hj1" => some 120
  | "hj2" => some 45
  | "raj1" => some 120
  | "raj2" => some 1
  | "raj3" => some 120
  | "raj4" => some 90
  | "laj1" => some 120
  | "laj2" => some 95
  | "laj3" => some 120
  | "laj4" => some 1
  | "rlj1" => some 1
  | "rlj2" => some 25
  | "rlj3" => some 100
  | "rlj4" => some 1
  | "rlj5" => some 75
  | "rlj6" => some 45
  | "llj1" => some 1
  | "llj2" => some 45
  | "llj3" => some 100
  | "llj4" => some 1
  | "llj5" => some 75
  | "llj6" => some 25
  | _ => none

/-- The `hjMin` table of `NaoRobot.__init__`: minimum legal angle (degrees). -/
def hjMin : String → Option ℚ
  | "hj1" => some (-120)
  | "hj2" => some (-45)
  | "raj1" => some (-120)
  | "raj2" => some (-95)
  | "raj3" => some (-120)
  | "raj4" => some (-1)
  | "laj1" => some (-120)
  | "laj2" => some (-1)
  | "laj3" => some (-120)
  | "laj4" => some (-90)
  | "rlj1" => some (-90)
  | "rlj2" => some (-45)
  | "rlj3" => some (-25)
  | "rlj4" => some (-130)
  | "rlj5" => some (-45)
  | "rlj6" => some (-25)
  | "llj1" => some (-90)
  | "llj2" => some (-25)
  | "llj3" => some (-25)
  | "llj4" => some (-130)
  | "llj5" => some (-45)
  | "llj6" => some (-45)
  | _ => none

/-- `self.maxhjSpeed = 7.035`. -/
def maxhjSpeed : ℚ := 7035 / 1000

/-- Lines 732-741 of `move_hj_to`: the target angle resolved from the
`angle`/`percent` keywords (`angle` wins when both are given; both `None`
raises) and clamped to the joint's legal `[hjMin, hjMax]` range. -/
def resolveTarget (lo hi : ℚ) (angleArg percentArg : Option ℚ) : Option ℚ :=
  match angleArg, percentArg with
  | none, none => none
  | some a, _ => some (if a > hi then hi else if a < lo then lo else a)
  | none, some p =>
    let a := lo + p / 100 * (hi - lo)
    some (if a > hi then hi else if a < lo then lo else a)

/-- Observable outcome of one `move_hj_to` call: the hinge joint effector
message sent (effector name and rate), if any, and the returned string. -/
structure HJCmd where
  cmd : Option (String × ℚ)
  ret : String
deriving DecidableEq, Repr

/-- `NaoRobot.move_hj_to`, lines 722-769: looks up the effector, resolves
and clamps the target, clamps the speed percentage to `[0, 100]` and scales
it by `maxhjSpeed`, then either reports `done` with a zero rate (when the
current angle is within `accuracy = 0.1` degrees of the target) or caps the
speed at `|diff|/4` and commands a rate signed toward the target, reporting
`not done`.  `hjAngle` is the current perceived joint angle map `self.hj`;
`none` models a raised exception (unknown joint or missing keywords). -/
def NaoRobot.move_hj_to (hjAngle : String → ℚ) (hj : String)
    (angleArg percentArg : Option ℚ) (speedArg : ℚ) : Option HJCmd :=
  match hjEffector hj, hjMin hj, hjMax hj with
  | some he, some lo, some hi =>
    match resolveTarget lo hi angleArg percentArg with
    | none => none
    | some angle =>
      let speed1 := if speedArg > 100 then (100 : ℚ) else if speedArg < 0 then 0 else speedArg
      let speed2 := speed1 / 100 * maxhjSpeed
      let accuracy : ℚ := 1 / 10
      let diff := hjAngle hj - angle
      if |diff| ≤ accuracy then some ⟨some (he, 0), "done"⟩
      else
        let speed3 := if |speed2| > |diff| / 4 then |diff| / 4 else speed2
        if hjAngle hj < angle then some ⟨some (he, |speed3|), "not done"⟩
        else if hjAngle hj > angle then some ⟨some (he, -|speed3|), "not done"⟩
        else some ⟨none, "not done"⟩
  | _, _, _ => none

/-! ## The say effector (`PNS.say_effector`) -/

/-- `PNS.say_effector`, lines 201-213: truncate the message to its first 20
characters, send nothing if any remaining character is a space or a
parenthesis, otherwise send the payload `(say <message>)`.  The result is
the payload handed to `_send_effector`, or `none` when nothing is sent. -/
def PNS.say_effector (message : String) : Option String :=
  let msgChars := message.toList
  let m := if 20 < msgChars.length then msgChars.take 20 else msgChars
  if m.any (fun c => c == ' ' || c == '(' || c == ')') then none
  else some ("(say " ++ String.mk m ++ ")")

/-! ## The orientation integrator (`Gyroscope.set`, `rotate_arbitrary`) -/

/-- Cycle length in seconds (`CYCLE_LENGTH = 0.02`). -/
noncomputable def CYCLE_LENGTH : ℝ := 1 / 50

/-- Vectors of `np.array` of length 3. -/
abbrev Vec3 := ℝ × ℝ × ℝ

/-- `np.linalg.norm` on a length-3 array. -/
noncomputable def vnorm (a : Vec3) : ℝ :=
  Real.sqrt (a.1 * a.1 + a.2.1 * a.2.1 + a.2.2 * a.2.2)

/-- `rotate_arbitrary`, lines 848-880: rotate `point` about `axis` by
`angle` (taken as the axis norm when `angle` is `None`, converted from
degrees when `degree` holds) using the explicit Rodrigues formula of the
source; a zero-norm axis returns the point unchanged. -/
noncomputable def rotate_arbitrary (axis point : Vec3) (angleArg : Option ℝ)
    (degree : Bool) : Vec3 :=
  let axisNorm := vnorm axis
  if axisNorm = 0 then point
  else
    let axisn : Vec3 := (axis.1 / axisNorm, axis.2.1 / axisNorm, axis.2.2 / axisNorm)
    let angle0 := match angleArg with
      | none => axisNorm
      | some a => a
    let angle := if degree then angle0 * (Real.pi / 180) else angle0
    let u := axisn.1
    let v := axisn.2.1
    let w := axisn.2.2
    let x := point.1
    let y := point.2.1
    let z := point.2.2
    let sinA := Real.sin angle
    let cosA := Real.cos angle
    let dot := u * x + v * y + w * z
    let tmp := dot * (1 - cosA)
    (u * tmp + x * cosA + (-w * y + v * z) * sinA,
     v * tmp + y * cosA + (w * x - u * z) * sinA,
     w * tmp + z * cosA + (-v * x + u * y) * sinA)

/-- The gyroscope perceptor state: the latest angular rate (deg/s) and the
unit vectors of the body frame with respect to the global frame. -/
structure Gyroscope where
  name : String
  rate : Vec3
  x : Vec3
  y : Vec3
  z : Vec3

/-- `Gyroscope.__init__`: zero rate, axis-aligned frame. -/
noncomputable def Gyroscope.init (name : String) : Gyroscope :=
  ⟨name, (0, 0, 0), (1, 0, 0), (0, 1, 0), (0, 0, 1)⟩

/-- `Gyroscope.set`, lines 344-354: store the rate, compute the rotation
angle of the last cycle (`norm(rate) / (1/CYCLE_LENGTH)` degrees) and apply
the axis rotation to each frame vector. -/
noncomputable def Gyroscope.set (g : Gyroscope) (rate : Vec3) : Gyroscope :=
  let rotationAngle := vnorm rate / (1 / CYCLE_LENGTH)
  { g with
    rate := rate
    x := rotate_arbitrary rate g.x (some rotationAngle) true
    y := rotate_arbitrary rate g.y (some rotationAngle) true
    z := rotate_arbitrary rate g.z (some rotationAngle) true }

/-! ## Absence of one-element lists in parser output -/

mutual

/-- No `pList` node of length exactly one occurs anywhere in the tree. -/
def noSingleton : PyParsed → Bool
  | .pInt _ => true
  | .pFloat _ => true
  | .pStr _ => true
  | .pList xs => (xs.length != 1) && noSingletonList xs

/-- `noSingleton` holds of every element of the list. -/
def noSingletonList : List PyParsed → Bool
  | [] => true
  | x :: xs => noSingleton x && noSingletonList xs

end

/-! ## Helper lemmas: the scheduler -/

lemma conflicts_iff (u t : SchedTask) :
    conflicts u t = true ↔
      u.fn = t.fn ∧ ∃ v, dictGet u.kw ("hj") = some v ∧ dictGet t.kw ("hj") = some v := by
  unfold conflicts
  cases hu : dictGet u.kw ("hj") <;> cases ht : dictGet t.kw ("hj") <;>
    simp [beq_iff_eq] <;> aesop

lemma append_err_queue (q : List SchedTask) (v : PyVal) (e : SchedErr)
    (h : (MovementScheduler.append q v).err = some e) :
    (MovementScheduler.append q v).queue = q := by
  rcases v with xs | _
  · rcases xs with _ | ⟨a, _ | ⟨b, _ | ⟨c, _ | ⟨d, tl⟩⟩⟩⟩
    · rfl
    · rfl
    · rcases a with f | d' | i | _ <;> rcases b with f2 | d2 | i2 | _ <;>
        simp_all [MovementScheduler.append, checkTwo] <;>
        split_ifs at h ⊢ <;> simp_all
    · rcases c with f3 | d3 | i3 | _ <;> rcases a with f | d' | i | _ <;>
        rcases b with f2 | d2 | i2 | _ <;>
        simp_all [MovementScheduler.append, checkTwo] <;>
        split_ifs at h ⊢ <;> simp_all
    · rfl
  · rfl

lemma append_ok (q : List SchedTask) (v : PyVal)
    (h : (MovementScheduler.append q v).err = none) :
    ∃ t, extractTask v = some t ∧ (MovementScheduler.append q v).queue = q ++ [t] := by
  rcases v with xs | _
  · rcases xs with _ | ⟨a, _ | ⟨b, _ | ⟨c, _ | ⟨d, tl⟩⟩⟩⟩
    · simp_all [MovementScheduler.append]
    · simp_all [MovementScheduler.append]
    · rcases a with f | d' | i | _ <;> rcases b with f2 | d2 | i2 | _ <;>
        simp_all [MovementScheduler.append, checkTwo, extractTask] <;>
        split_ifs at h ⊢ <;> simp_all
    · rcases c with f3 | d3 | i3 | _ <;> rcases a with f | d' | i | _ <;>
        rcases b with f2 | d2 | i2 | _ <;>
        simp_all [MovementScheduler.append, checkTwo, extractTask] <;>
        split_ifs at h ⊢ <;> simp_all
    · simp_all [MovementScheduler.append]
  · simp_all [MovementScheduler.append]

lemma extractTask_taskToPyVal (t : SchedTask) : extractTask (taskToPyVal t) = some t := by
  rcases t with ⟨f, kw, _ | i⟩ <;> rfl

lemma append_task (q : List SchedTask) (t : SchedTask) :
    MovementScheduler.append q (taskToPyVal t) =
      if q.any (fun u => conflicts u t) then ⟨some SchedErr.schedulerConflict, q⟩
      else ⟨none, q ++ [t]⟩ := by
  rcases t with ⟨f, kw, _ | i⟩ <;>
    simp [taskToPyVal, MovementScheduler.append, checkTwo]

lemma appendAll_ok (vs : List PyVal) (q q' : List SchedTask)
    (h : appendAll q vs = (none, q')) :
    q' = q ++ vs.filterMap extractTask := by
  induction vs generalizing q with
  | nil => simpa [appendAll] using h.symm
  | cons v vs ih =>
    rw [appendAll] at h
    rcases hr : (MovementScheduler.append q v).err with _ | e
    · rw [hr] at h
      obtain ⟨t, hext, hq⟩ := append_ok q v hr
      rw [hq] at h
      rw [List.filterMap_cons, hext, ih _ h, List.append_assoc]
      rfl
    · rw [hr] at h
      simp at h

lemma runAux_spec (env : Nat → SchedTask → StepEffect) (pend : List SchedTask) :
    ∀ (extra : List SchedTask) (cs : List Bool) (tr : List SchedTask),
    (MovementScheduler.runAux env pend.length (pend ++ extra) cs tr).err = none →
    MovementScheduler.runAux env pend.length (pend ++ extra) cs tr =
      ⟨none, extra ++ runSpecQueue env tr.length pend,
        runSpecCells env tr.length pend cs, tr ++ pend⟩ := by
  induction pend with
  | nil =>
    intro extra cs tr _
    simp [MovementScheduler.runAux, runSpecQueue, runSpecCells]
  | cons t ps ih =>
    intro extra cs tr h
    rw [List.cons_append] at h ⊢
    rw [List.length_cons, MovementScheduler.runAux] at h ⊢
    rcases happ : appendAll (ps ++ extra) (env tr.length t).enqueues with ⟨oe, q1⟩
    rcases oe with _ | e
    · rw [happ] at h
      dsimp only at h ⊢
      have hq1 : q1 = ps ++ (extra ++ (env tr.length t).enqueues.filterMap extractTask) := by
        rw [appendAll_ok _ _ _ happ, List.append_assoc]
      by_cases hd : (env tr.length t).retDone = true
      · rw [if_pos hd] at h ⊢
        rcases hc : t.cell with _ | i
        · rw [hc] at h
          dsimp only at h ⊢
          rw [hq1] at h ⊢
          rw [ih _ _ _ h]
          simp [runSpecQueue, runSpecCells, hd, hc, List.append_assoc]
        · rw [hc] at h
          dsimp only at h ⊢
          by_cases hlt : i < cs.length
          · rw [if_pos hlt] at h ⊢
            rw [hq1] at h ⊢
            rw [ih _ _ _ h]
            simp [runSpecQueue, runSpecCells, hd, hc, List.append_assoc]
          · rw [if_neg hlt] at h
            simp at h
      · rw [if_neg hd] at h ⊢
        rw [append_task] at h ⊢
        by_cases hcf : q1.any (fun u => conflicts u t) = true
        · rw [if_pos hcf] at h
          simp at h
        · rw [if_neg hcf] at h ⊢
          dsimp only at h ⊢
          have hq2 : q1 ++ [t] =
              ps ++ (extra ++ ((env tr.length t).enqueues.filterMap extractTask ++ [t])) := by
            rw [hq1]
            simp [List.append_assoc]
          rw [hq2] at h ⊢
          rw [ih _ _ _ h]
          simp [runSpecQueue, runSpecCells, hd, List.append_assoc]
    · rw [happ] at h
      simp at h

/-! ## Claim theorems: the scheduler -/

/-- C2: `MovementScheduler.append` raises `SchedulerConflict` if and only if
some already-queued task has the same target function as the new task and
both tasks' keyword dicts contain key `hj` with equal values. -/
theorem append_conflict_iff (q : List SchedTask) (t : SchedTask) :
    (MovementScheduler.append q (taskToPyVal t)).err = some SchedErr.schedulerConflict ↔
      ∃ u ∈ q, u.fn = t.fn ∧
        ∃ v, dictGet u.kw ("hj") = some v ∧ dictGet t.kw ("hj") = some v := by
  rw [append_task]
  by_cases h : q.any (fun u => conflicts u t) = true
  · rw [if_pos h]
    refine iff_of_true rfl ?_
    obtain ⟨u, hu, hcu⟩ := List.any_eq_true.1 h
    obtain ⟨h1, v, h2, h3⟩ := (conflicts_iff u t).1 hcu
    exact ⟨u, hu, h1, v, h2, h3⟩
  · rw [if_neg h]
    refine iff_of_false (by simp) ?_
    rintro ⟨u, hu, h1, v, h2, h3⟩
    exact h (List.any_eq_true.2 ⟨u, hu, (conflicts_iff u t).2 ⟨h1, v, h2, h3⟩⟩)

/-- Witness for C2: enqueueing the same function with `hj = rlj3` twice
conflicts on the second append. -/
theorem append_conflict_iff_witness :
    (MovementScheduler.append [⟨0, [("hj", "rlj3")], none⟩]
        (taskToPyVal ⟨0, [("hj", "rlj3")], none⟩)).err =
      some SchedErr.schedulerConflict :=
  (append_conflict_iff [⟨0, [("hj", "rlj3")], none⟩] ⟨0, [("hj", "rlj3")], none⟩).2
    ⟨⟨0, [("hj", "rlj3")], none⟩, by decide, rfl, "rlj3", rfl, rfl⟩

/-- C7: every enqueue attempt that fails, with a format error or a conflict
error, leaves the scheduler queue completely unchanged. -/
theorem append_error_no_side_effect (q : List SchedTask) (v : PyVal) (e : SchedErr)
    (h : (MovementScheduler.append q v).err = some e) :
    (MovementScheduler.append q v).queue = q :=
  append_err_queue q v e h

/-- Witness for C7: a non-list item is rejected and the queue stays empty. -/
theorem append_error_no_side_effect_witness :
    (MovementScheduler.append [] PyVal.nonlist).err =
        some (SchedErr.queueItemError ("MovementQueue items must be lists.")) ∧
      (MovementScheduler.append [] PyVal.nonlist).queue = [] :=
  ⟨rfl, append_error_no_side_effect [] PyVal.nonlist
    (SchedErr.queueItemError ("MovementQueue items must be lists.")) rfl⟩

/-- C1 (amended): when a `run` call completes without raising, it executes
exactly one step of each task queued at the start of the call (tasks
enqueued by a step during the call are not executed in it), preserves FIFO
order, re-appending the not-yet-done tasks to the back, removes each done
task and sets its completion cell's zeroth entry when it carries one. -/
theorem run_executes_each_queued_task_once (env : Nat → SchedTask → StepEffect)
    (q : List SchedTask) (cells : List Bool)
    (h : (MovementScheduler.run env q cells).err = none) :
    (MovementScheduler.run env q cells).trace = q ∧
    (MovementScheduler.run env q cells).queue = runSpecQueue env 0 q ∧
    (MovementScheduler.run env q cells).cells = runSpecCells env 0 q cells := by
  have hrw : MovementScheduler.run env q cells =
      MovementScheduler.runAux env q.length (q ++ []) cells [] := by
    simp [MovementScheduler.run]
  rw [hrw] at h ⊢
  rw [runAux_spec env q [] cells [] h]
  simp

/-- Witness for C1: a run over a done task with a completion cell and a
not-yet-done task completes without error, steps both exactly once, requeues
the second and sets the first task's completion cell. -/
theorem run_executes_each_queued_task_once_witness :
    (MovementScheduler.run
        (fun _ u => if u.fn = 0 then ⟨true, []⟩ else ⟨false, []⟩)
        [⟨0, [], some 0⟩, ⟨1, [], none⟩] [false]).err = none ∧
      ((MovementScheduler.run
          (fun _ u => if u.fn = 0 then ⟨true, []⟩ else ⟨false, []⟩)
          [⟨0, [], some 0⟩, ⟨1, [], none⟩] [false]).trace =
          [⟨0, [], some 0⟩, ⟨1, [], none⟩] ∧
        (MovementScheduler.run
          (fun _ u => if u.fn = 0 then ⟨true, []⟩ else ⟨false, []⟩)
          [⟨0, [], some 0⟩, ⟨1, [], none⟩] [false]).queue =
          runSpecQueue (fun _ u => if u.fn = 0 then ⟨true, []⟩ else ⟨false, []⟩) 0
            [⟨0, [], some 0⟩, ⟨1, [], none⟩] ∧
        (MovementScheduler.run
          (fun _ u => if u.fn = 0 then ⟨true, []⟩ else ⟨false, []⟩)
          [⟨0, [], some 0⟩, ⟨1, [], none⟩] [false]).cells =
          runSpecCells (fun _ u => if u.fn = 0 then ⟨true, []⟩ else ⟨false, []⟩) 0
            [⟨0, [], some 0⟩, ⟨1, [], none⟩] [false]) :=
  ⟨by decide,
    run_executes_each_queued_task_once
      (fun _ u => if u.fn = 0 then ⟨true, []⟩ else ⟨false, []⟩)
      [⟨0, [], some 0⟩, ⟨1, [], none⟩] [false] (by decide)⟩

/-- Counterexample to C1 as stated: when the first task's step enqueues a
task with its own function and `hj` value and does not report done, the
re-append raises `SchedulerConflict` and the run call aborts — the second
task, although queued at the start of the call, is never executed, so not
every initially queued task gets a step. -/
theorem run_counterexample_task_skipped :
    (MovementScheduler.run
        (fun _ u =>
          if u.fn = 0 then ⟨false, [taskToPyVal ⟨0, [("hj", "rlj3")], none⟩]⟩
          else ⟨false, []⟩)
        [⟨0, [("hj", "rlj3")], none⟩, ⟨1, [], none⟩] []).err =
      some SchedErr.schedulerConflict ∧
    (MovementScheduler.run
        (fun _ u =>
          if u.fn = 0 then ⟨false, [taskToPyVal ⟨0, [("hj", "rlj3")], none⟩]⟩
          else ⟨false, []⟩)
        [⟨0, [("hj", "rlj3")], none⟩, ⟨1, [], none⟩] []).trace =
      [⟨0, [("hj", "rlj3")], none⟩] := by
  constructor <;> decide

/-- C9: `run` re-enqueues a not-yet-done task through the conflict-checking
`append`, so a step that enqueued a task with the same function and the same
`hj` value makes `run` itself raise `SchedulerConflict`, and the unfinished
original task is dropped: it was popped and never re-appended, leaving only
the newly enqueued task in the queue. -/
theorem run_reappend_conflict (t uT : SchedTask) (cells : List Bool)
    (env : Nat → SchedTask → StepEffect) (v : String)
    (henv : env 0 t = ⟨false, [taskToPyVal uT]⟩)
    (hfn : uT.fn = t.fn)
    (ht : dictGet t.kw ("hj") = some v)
    (hu : dictGet uT.kw ("hj") = some v) :
    MovementScheduler.run env [t] cells =
      ⟨some SchedErr.schedulerConflict, [uT], cells, [t]⟩ := by
  have hcf : conflicts uT t = true := (conflicts_iff uT t).2 ⟨hfn, v, hu, ht⟩
  unfold MovementScheduler.run
  simp only [List.length_cons, List.length_nil, MovementScheduler.runAux, henv,
    appendAll, append_task, List.any_nil, Bool.false_eq_true, if_false,
    List.nil_append, List.any_cons, hcf, Bool.true_or, if_true]

/-- Witness for C9: a single queued task whose step enqueues a copy of
itself makes the run call raise and leaves only the copy queued. -/
theorem run_reappend_conflict_witness :
    MovementScheduler.run
        (fun _ _ => ⟨false, [taskToPyVal ⟨0, [("hj", "rlj3")], none⟩]⟩)
        [⟨0, [("hj", "rlj3")], none⟩] [] =
      ⟨some SchedErr.schedulerConflict, [⟨0, [("hj", "rlj3")], none⟩],
        [], [⟨0, [("hj", "rlj3")], none⟩]⟩ :=
  run_reappend_conflict ⟨0, [("hj", "rlj3")], none⟩ ⟨0, [("hj", "rlj3")], none⟩ []
    (fun _ _ => ⟨false, [taskToPyVal ⟨0, [("hj", "rlj3")], none⟩]⟩) "rlj3"
    rfl rfl rfl rfl

/-! ## Claim theorems: the receive loop -/

/-- C3 (code bug): the guard `nextBytes == ''` of `_receive_message`
compares a `bytes` value with a `str` value, which is never true in
Python 3, so the connection-closed `OSError` can never be raised — for
every recv stream, requested length, fuel, call index and accumulator the
loop never reaches the `raised` outcome; in particular, with a closed
connection (every recv returning the empty chunk) and requested length 4
the loop spins forever instead of failing. -/
theorem receive_message_never_raises :
    (∀ (recv : Nat → List Nat) (len fuel k : Nat) (acc : List Nat) (msg : String),
      PNS.receive_message_loop recv len fuel k acc ≠ RecvOutcome.raised msg) ∧
    (∀ fuel, PNS.receive_message (fun _ => []) 4 fuel = RecvOutcome.stillLooping) := by
  constructor
  · intro recv len fuel
    induction fuel with
    | zero => intro k acc msg; simp [PNS.receive_message_loop]
    | succ n ih =>
      intro k acc msg
      rw [PNS.receive_message_loop]
      by_cases h : acc.length < len
      · rw [if_pos h]
        simp only [pyEq, Bool.false_eq_true, if_false]
        exact ih (k + 1) (acc ++ recv k) msg
      · rw [if_neg h]
        simp
  · have key : ∀ fuel k, PNS.receive_message_loop (fun _ => []) 4 fuel k [] =
        RecvOutcome.stillLooping := by
      intro fuel
      induction fuel with
      | zero => intro k; rfl
      | succ n ih =>
        intro k
        rw [PNS.receive_message_loop]
        simp only [List.length_nil, Nat.zero_lt_succ, if_pos, pyEq,
          Bool.false_eq_true, if_false, List.nil_append]
        exact ih (k + 1)
    intro fuel
    exact key fuel 0

/-! ## Claim theorems: the say effector -/

lemma say_truncate_eq (l : List Char) :
    (if 20 < l.length then l.take 20 else l) = l.take 20 := by
  split_ifs with h
  · rfl
  · exact (List.take_of_length_le (by omega)).symm

/-- C10: `say_effector` truncates any message longer than 20 characters to
its first 20 characters before checking and sending; if the truncated
message contains a space or a parenthesis it sends nothing at all; and
every payload it does send has the form `(say <token>)` with a token of at
most 20 characters containing no spaces or parentheses. -/
theorem say_effector_spec :
    (∀ msg : String,
      PNS.say_effector msg = PNS.say_effector (String.mk (msg.toList.take 20))) ∧
    (∀ msg : String,
      (∃ c ∈ msg.toList.take 20, c = ' ' ∨ c = '(' ∨ c = ')') →
        PNS.say_effector msg = none) ∧
    (∀ (msg p : String), PNS.say_effector msg = some p →
      ∃ tok : List Char, p = "(say " ++ String.mk tok ++ ")" ∧
        tok.length ≤ 20 ∧ ∀ c ∈ tok, ¬(c = ' ' ∨ c = '(' ∨ c = ')')) := by
  have htl : ∀ l : List Char, (String.mk l).toList = l := fun _ => rfl
  refine ⟨?_, ?_, ?_⟩
  · intro msg
    simp only [PNS.say_effector, htl, say_truncate_eq, List.take_take,
      Nat.min_self, ite_self]
  · intro msg ⟨c, hc, hbad⟩
    simp only [PNS.say_effector, say_truncate_eq]
    have : (msg.toList.take 20).any (fun c => c == ' ' || c == '(' || c == ')') = true := by
      refine List.any_eq_true.2 ⟨c, hc, ?_⟩
      rcases hbad with h | h | h <;> simp [h]
    rw [if_pos this]
  · intro msg p h
    simp only [PNS.say_effector, say_truncate_eq] at h
    by_cases hany :
        (msg.toList.take 20).any (fun c => c == ' ' || c == '(' || c == ')') = true
    · rw [if_pos hany] at h
      exact absurd h (by simp)
    · rw [if_neg hany] at h
      refine ⟨msg.toList.take 20, (Option.some_injective _ h).symm, ?_, ?_⟩
      · exact (List.length_take 20 msg.toList).le.trans (Nat.min_le_left _ _)
      · intro c hc hbad
        refine hany (List.any_eq_true.2 ⟨c, hc, ?_⟩)
        rcases hbad with h' | h' | h' <;> simp [h']

/-- Witness for C10: a message with a space is dropped entirely; `hello`
is sent as the payload `(say hello)` whose token is clean. -/
theorem say_effector_spec_witness :
    PNS.say_effector ("hello world") = none ∧
    (∃ tok : List Char, "(say hello)" = "(say " ++ String.mk tok ++ ")" ∧
      tok.length ≤ 20 ∧ ∀ c ∈ tok, ¬(c = ' ' ∨ c = '(' ∨ c = ')')) :=
  ⟨say_effector_spec.2.1 ("hello world") ⟨' ', by decide, Or.inl rfl⟩,
    say_effector_spec.2.2 ("hello") ("(say hello)") (by decide)⟩

/-! ## Claim theorems: the joint motion controller -/

/-- C6: for every joint and resolved, clamped target, `move_hj_to` with the
current angle within `0.1` degrees of the target commands a zero rate to the
joint's effector and reports done; otherwise it reports not done and
commands a rate of magnitude at most `|diff|/4` whose sign drives the joint
toward the target (strictly, whenever a positive speed was requested). -/
theorem move_hj_to_spec
    (hjAngle : String → ℚ) (hj he : String) (lo hi : ℚ)
    (angleArg percentArg : Option ℚ) (speedArg target : ℚ) (r : HJCmd)
    (hEff : hjEffector hj = some he) (hMn : hjMin hj = some lo)
    (hMx : hjMax hj = some hi)
    (hRes : resolveTarget lo hi angleArg percentArg = some target)
    (hmv : NaoRobot.move_hj_to hjAngle hj angleArg percentArg speedArg = some r) :
    (|hjAngle hj - target| ≤ 1 / 10 → r = ⟨some (he, 0), "done"⟩) ∧
    (1 / 10 < |hjAngle hj - target| →
      ∃ rate, r = ⟨some (he, rate), "not done"⟩ ∧
        |rate| ≤ |hjAngle hj - target| / 4 ∧
        0 ≤ rate * (target - hjAngle hj) ∧
        (0 < speedArg → 0 < rate * (target - hjAngle hj))) := by
  simp only [NaoRobot.move_hj_to, hEff, hMn, hMx, hRes] at hmv
  set cur := hjAngle hj with hcur
  set sp2 := (if speedArg > 100 then (100 : ℚ) else if speedArg < 0 then 0 else speedArg)
      / 100 * maxhjSpeed with hsp2
  have hms : (0 : ℚ) < maxhjSpeed := by norm_num [maxhjSpeed]
  have hsp2nn : 0 ≤ sp2 := by
    rw [hsp2]
    split_ifs with h1 h2
    · positivity
    · simp
    · have h3 : 0 ≤ speedArg := not_lt.1 h2
      positivity
  have hsp2pos : 0 < speedArg → 0 < sp2 := by
    intro hpos
    rw [hsp2]
    split_ifs with h1 h2
    · positivity
    · linarith
    · positivity
  constructor
  · intro hle
    rw [if_pos hle] at hmv
    exact (Option.some.inj hmv).symm
  · intro hgt
    rw [if_neg (not_le.2 hgt)] at hmv
    have hd4 : 0 < |cur - target| / 4 := by linarith
    by_cases hcap : |sp2| > |cur - target| / 4
    · rw [if_pos hcap] at hmv
      by_cases hlt : cur < target
      · rw [if_pos hlt] at hmv
        refine ⟨_, (Option.some.inj hmv).symm, ?_, ?_, fun _ => ?_⟩
        · rw [abs_abs, abs_of_nonneg hd4.le]
        · exact mul_nonneg (abs_nonneg _) (sub_pos.2 hlt).le
        · rw [abs_of_nonneg hd4.le]
          exact mul_pos hd4 (sub_pos.2 hlt)
      · by_cases hgt2 : cur > target
        · rw [if_neg hlt, if_pos hgt2] at hmv
          refine ⟨_, (Option.some.inj hmv).symm, ?_, ?_, fun _ => ?_⟩
          · rw [abs_neg, abs_abs, abs_of_nonneg hd4.le]
          · rw [abs_of_nonneg hd4.le]
            nlinarith [sub_pos.2 hgt2]
          · rw [abs_of_nonneg hd4.le]
            nlinarith [sub_pos.2 hgt2]
        · exfalso
          have : cur = target := le_antisymm (not_lt.1 hgt2) (not_lt.1 hlt)
          rw [this] at hgt
          simp at hgt
          linarith
    · rw [if_neg hcap] at hmv
      have hle4 : |sp2| ≤ |cur - target| / 4 := not_lt.1 hcap
      by_cases hlt : cur < target
      · rw [if_pos hlt] at hmv
        refine ⟨_, (Option.some.inj hmv).symm, ?_, ?_, fun hpos => ?_⟩
        · rw [abs_abs]
          exact hle4
        · exact mul_nonneg (abs_nonneg _) (sub_pos.2 hlt).le
        · exact mul_pos (abs_pos.2 (ne_of_gt (hsp2pos hpos))) (sub_pos.2 hlt)
      · by_cases hgt2 : cur > target
        · rw [if_neg hlt, if_pos hgt2] at hmv
          refine ⟨_, (Option.some.inj hmv).symm, ?_, ?_, fun hpos => ?_⟩
          · rw [abs_neg, abs_abs]
            exact hle4
          · nlinarith [abs_nonneg sp2, sub_pos.2 hgt2]
          · nlinarith [abs_pos.2 (ne_of_gt (hsp2pos hpos)), sub_pos.2 hgt2]
        · exfalso
          have : cur = target := le_antisymm (not_lt.1 hgt2) (not_lt.1 hlt)
          rw [this] at hgt
          simp at hgt
          linarith

/-- Witness for C6: joint `rlj3` at 0 degrees moving to 40 degrees at speed
25 reports not done with a rate toward the target of magnitude at most
`40/4`. -/
theorem move_hj_to_spec_witness :
    ∃ rate, (⟨some (("rle3"), 7035 / 4000), "not done"⟩ : HJCmd) =
        ⟨some (("rle3"), rate), "not done"⟩ ∧
      |rate| ≤ |(fun _ => (0 : ℚ)) ("rlj3") - 40| / 4 ∧
      0 ≤ rate * (40 - (fun _ => (0 : ℚ)) ("rlj3")) ∧
      ((0 : ℚ) < 25 → 0 < rate * (40 - (fun _ => (0 : ℚ)) ("rlj3"))) := by
  have h40 : |(0 : ℚ) - 40| = 40 := by
    rw [abs_sub_comm, abs_of_nonneg] <;> norm_num
  have hres : resolveTarget (-25) 100 (some 40) none = some 40 := by
    norm_num [resolveTarget]
  have hmv : NaoRobot.move_hj_to (fun _ => (0 : ℚ)) ("rlj3") (some 40) none 25 =
      some ⟨some (("rle3"), 7035 / 4000), "not done"⟩ := by
    simp only [NaoRobot.move_hj_to, show hjEffector ("rlj3") = some ("rle3") from rfl,
      show hjMin ("rlj3") = some (-25) from rfl,
      show hjMax ("rlj3") = some 100 from rfl, hres]
    rw [h40]
    rw [if_neg (by norm_num : ¬((40 : ℚ) ≤ 1 / 10))]
    rw [if_neg (by norm_num : ¬((25 : ℚ) > 100)), if_neg (by norm_num : ¬((25 : ℚ) < 0))]
    have habs : |(25 : ℚ) / 100 * maxhjSpeed| = 7035 / 4000 := by
      rw [abs_of_nonneg] <;> norm_num [maxhjSpeed]
    rw [habs]
    rw [if_neg (by norm_num : ¬((7035 : ℚ) / 4000 > 40 / 4))]
    rw [if_pos (by norm_num : (0 : ℚ) < 40)]
    rw [habs]
  exact (move_hj_to_spec (fun _ => (0 : ℚ)) ("rlj3") ("rle3") (-25) 100
      (some 40) none 25 40 ⟨some (("rle3"), 7035 / 4000), "not done"⟩
      rfl rfl rfl hres hmv).2 (by rw [h40]; norm_num)

/-! ## Claim theorems: the orientation integrator -/

lemma vnorm_zero : vnorm 0 = 0 := by
  simp [vnorm]

/-- C8: a zero angular-rate vector leaves all three orientation unit vectors
unchanged; a rate vector aligned with the current x-axis leaves x unchanged,
while on the initial frame a rate along x genuinely rotates y and z (they
change). -/
theorem gyroscope_orientation_spec :
    (∀ g : Gyroscope,
      (g.set (0, 0, 0)).x = g.x ∧ (g.set (0, 0, 0)).y = g.y ∧
        (g.set (0, 0, 0)).z = g.z) ∧
    (∀ (g : Gyroscope) (c : ℝ),
      (g.set (c * g.x.1, c * g.x.2.1, c * g.x.2.2)).x = g.x) ∧
    ((Gyroscope.init ("torso")).set (300, 0, 0)).y ≠ (Gyroscope.init ("torso")).y ∧
    ((Gyroscope.init ("torso")).set (300, 0, 0)).z ≠ (Gyroscope.init ("torso")).z := by
  have hnorm : vnorm (300, 0, 0) = 300 := by
    rw [vnorm]
    norm_num
    rw [show (90000 : ℝ) = 300 ^ 2 from by norm_num, Real.sqrt_sq (by norm_num : (0:ℝ) ≤ 300)]
  have hang : (300 : ℝ) / (1 / CYCLE_LENGTH) * (Real.pi / 180) = Real.pi / 30 := by
    rw [CYCLE_LENGTH]
    norm_num
    ring
  have hsin : 0 < Real.sin (Real.pi / 30) :=
    Real.sin_pos_of_pos_of_lt_pi (by positivity)
      (div_lt_self Real.pi_pos (by norm_num))
  refine ⟨?_, ?_, ?_, ?_⟩
  · intro g
    refine ⟨?_, ?_, ?_⟩ <;> simp [Gyroscope.set, rotate_arbitrary, vnorm_zero]
  · intro g c
    rcases hgx : g.x with ⟨x1, x23⟩
    rcases hx23 : x23 with ⟨x2, x3⟩
    simp only [Gyroscope.set]
    rw [hgx, hx23] at *
    unfold rotate_arbitrary
    by_cases hn : vnorm (c * x1, c * x2, c * x3) = 0
    · rw [if_pos hn]
    · rw [if_neg hn]
      have hnn : (0 : ℝ) ≤ c * x1 * (c * x1) + c * x2 * (c * x2) + c * x3 * (c * x3) := by
        nlinarith [sq_nonneg (c * x1), sq_nonneg (c * x2), sq_nonneg (c * x3)]
      have hsq : vnorm (c * x1, c * x2, c * x3) * vnorm (c * x1, c * x2, c * x3) =
          c * x1 * (c * x1) + c * x2 * (c * x2) + c * x3 * (c * x3) :=
        Real.mul_self_sqrt hnn
      set N := vnorm (c * x1, c * x2, c * x3) with hNdef
      dsimp only
      set A := N / (1 / CYCLE_LENGTH) * (Real.pi / 180) with hA
      simp only [Prod.ext_iff]
      refine ⟨?_, ?_, ?_⟩
      · field_simp
        first
        | linear_combination (x1 * (1 - Real.cos A)) * hsq
        | linear_combination (-(x1 * (1 - Real.cos A))) * hsq
        | linear_combination (x1 * (1 - Real.cos A) * N) * hsq
        | linear_combination (-(x1 * (1 - Real.cos A) * N)) * hsq
      · field_simp
        first
        | linear_combination (x2 * (1 - Real.cos A)) * hsq
        | linear_combination (-(x2 * (1 - Real.cos A))) * hsq
        | linear_combination (x2 * (1 - Real.cos A) * N) * hsq
        | linear_combination (-(x2 * (1 - Real.cos A) * N)) * hsq
      · field_simp
        first
        | linear_combination (x3 * (1 - Real.cos A)) * hsq
        | linear_combination (-(x3 * (1 - Real.cos A))) * hsq
        | linear_combination (x3 * (1 - Real.cos A) * N) * hsq
        | linear_combination (-(x3 * (1 - Real.cos A) * N)) * hsq
  · intro heq
    have h3 := congrArg (fun p : Vec3 => p.2.2) heq
    simp only [Gyroscope.set, Gyroscope.init, rotate_arbitrary, hnorm, hang] at h3
    norm_num at h3
    linarith [hsin, h3]
  · intro heq
    have h3 := congrArg (fun p : Vec3 => p.2.1) heq
    simp only [Gyroscope.set, Gyroscope.init, rotate_arbitrary, hnorm, hang] at h3
    norm_num at h3
    linarith [hsin, h3]

/-! ## Claim theorems: the parser -/

lemma noSingleton_typeWord (w : String) : noSingleton (typeWord w) = true := by
  rcases hI : pyInt w with _ | n
  · rcases hF : pyFloat w with _ | q
    · simp [typeWord, hI, hF, noSingleton]
    · simp [typeWord, hI, hF, noSingleton]
  · simp [typeWord, hI, noSingleton]

lemma noSingletonList_append (a b : List PyParsed) :
    noSingletonList (a ++ b) = (noSingletonList a && noSingletonList b) := by
  induction a with
  | nil => simp [noSingletonList]
  | cons x xs ih => simp [noSingletonList, ih, Bool.and_assoc]

lemma noSingleton_collapse (xs : List PyParsed) (h : noSingletonList xs = true) :
    noSingleton (collapseList xs) = true := by
  match xs with
  | [] => simp [collapseList, noSingleton, noSingletonList]
  | [x] =>
    simp only [noSingletonList, Bool.and_eq_true] at h
    simpa [collapseList] using h.1
  | x :: y :: rest =>
    have hlen : ((x :: y :: rest).length != 1) = true := by
      simp only [List.length_cons, bne_iff_ne, ne_eq]
      omega
    simp [collapseList, noSingleton, hlen, h]

lemma parseLoop_noSingleton (sub : List Char → PyParsed)
    (hsub : ∀ slice, noSingleton (sub slice) = true) (s : List Char) :
    ∀ (rest : List Char) (st : ParseSt), noSingletonList st.l = true →
      noSingletonList (parseLoop sub s rest st).l = true := by
  intro rest
  induction rest with
  | nil =>
    intro st h
    simpa [parseLoop] using h
  | cons c cr ih =>
    intro st h
    rw [parseLoop]
    apply ih
    dsimp only
    split_ifs <;>
      simp_all [noSingletonList_append, noSingletonList, noSingleton_typeWord, hsub]

lemma str2listFuel_noSingleton :
    ∀ (fuel : Nat) (chars : List Char), noSingleton (str2listFuel fuel chars) = true := by
  intro fuel
  induction fuel with
  | zero =>
    intro chars
    simp [str2listFuel, noSingleton, noSingletonList]
  | succ n ih =>
    intro chars
    rw [str2listFuel]
    apply noSingleton_collapse
    apply parseLoop_noSingleton _ ih
    simp [noSingletonList]

/-- C4: for every input string, at every nesting level, a parsed list of
exactly one element is returned as that bare element: no `pList` node of
length exactly one occurs anywhere in the parser's output tree. -/
theorem parser_no_singleton_lists (s : String) : noSingleton (PNS.str2list s) = true :=
  str2listFuel_noSingleton _ _

/-- Witness for C4 at a concrete message. -/
theorem parser_no_singleton_lists_witness :
    noSingleton (PNS.str2list ("(a 1 2.5)")) = true :=
  parser_no_singleton_lists ("(a 1 2.5)")

/-- C5: `(a 1 2.5)` parses to the list `[Atom a, Integer 1, Float 2.5]`,
`(a)` parses to the bare atom `a`, and atom typing always attempts an
integer parse first, else a float parse, else leaves the token a string. -/
theorem parse_examples_and_atom_typing :
    PNS.str2list ("(a 1 2.5)") =
        .pList [.pStr ("a"), .pInt 1, .pFloat (5 / 2)] ∧
    PNS.str2list ("(a)") = .pStr ("a") ∧
    ∀ w : String, typeWord w =
      (match pyInt w with
       | some n => .pInt n
       | none =>
         match pyFloat w with
         | some q => .pFloat q
         | none => .pStr w) := by
  refine ⟨?_, rfl, fun w => rfl⟩
  have h1 : PNS.str2list ("(a 1 2.5)") =
      .pList [.pStr ("a"), .pInt 1, typeWord ("2.5")] := rfl
  have h2 : typeWord ("2.5") = .pFloat (5 / 2) := by
    have hI : pyInt ("2.5") = none := rfl
    have hF : pyFloat ("2.5") =
        some ((digitsToNat ['2'] : ℚ) + (digitsToNat ['5'] : ℚ) / (10 : ℚ) ^ (1 : ℕ)) := rfl
    simp only [typeWord, hI, hF, PyParsed.pFloat.injEq]
    rw [show digitsToNat ['2'] = 2 from rfl, show digitsToNat ['5'] = 5 from rfl]
    norm_num
  rw [h1, h2]

/-- Witness for C3: five observed iterations on a closed connection are all
still looping. -/
theorem receive_message_never_raises_witness :
    PNS.receive_message (fun _ => []) 4 5 = RecvOutcome.stillLooping :=
  receive_message_never_raises.2 5

/-- Witness for C8: the initial frame is unchanged by a zero rate. -/
theorem gyroscope_orientation_spec_witness :
    ((Gyroscope.init ("torso")).set (0, 0, 0)).x = (Gyroscope.init ("torso")).x :=
  (gyroscope_orientation_spec.1 (Gyroscope.init ("torso"))).1

/-- Witness for C5: the collapsing example. -/
theorem parse_examples_and_atom_typing_witness :
    PNS.str2list ("(a)") = PyParsed.pStr ("a") :=
  parse_examples_and_atom_typing.2.1
